import Mathlib

/-!
Verification of the Modbus TCP polling engine described by the repository's
design document, together with the example configuration script
`example_config.py` (the one source file present).  The engine itself
(`async_modbus_monitor`) is imported by the script but its code is not in the
repository, so the codec, registry, poll-cycle executor and monitor loop are
modelled from the specification; `data_processor` is embedded directly from
`example_config.py`.
-/

namespace ModbusMonitor

/-! ## Frame Codec (modelled from the spec, §4.2) -/

/-- Modelled from the spec: the four recognized register kinds
(holding-register, input-register, coil, discrete-input). -/
inductive RegisterKind
  | holding
  | input
  | coil
  | discreteInput
  deriving DecidableEq, Repr

/-- True for the 16-bit register kinds, false for the single-bit kinds. -/
def kindIsRegister : RegisterKind → Bool
  | .holding => true
  | .input => true
  | .coil => false
  | .discreteInput => false

/-- Modelled from the spec: protocol maximum count per request —
125 for register kinds, 2000 for bit kinds. -/
def maxCount : RegisterKind → Nat
  | .holding => 125
  | .input => 125
  | .coil => 2000
  | .discreteInput => 2000

/-- Modelled from the spec: a user-declared register group
(address 0–65535, count bounded by the kind's maximum, kind, name). -/
structure RegisterGroup where
  address : Nat
  count : Nat
  kind : RegisterKind
  name : String
  deriving DecidableEq, Repr

/-- Validity of a register group as the spec's registration surface states it. -/
def validGroup (g : RegisterGroup) : Prop :=
  g.address ≤ 65535 ∧ 1 ≤ g.count ∧ g.count ≤ maxCount g.kind ∧ g.name ≠ ""

/-- A decoded value sequence: 16-bit unsigned integers for register kinds,
booleans for bit kinds. -/
inductive Values
  | regs (vals : List Nat)
  | bits (vals : List Bool)
  deriving DecidableEq, Repr

/-- The eight bits of one response byte, least significant first
(bit 0 of the byte = first addressed point). -/
def bitsOfByte (b : Nat) : List Bool :=
  [b.testBit 0, b.testBit 1, b.testBit 2, b.testBit 3,
   b.testBit 4, b.testBit 5, b.testBit 6, b.testBit 7]

/-- Unpack a byte sequence into its bit sequence, bytes in order,
bits of each byte least significant first. -/
def unpackBytes : List Nat → List Bool
  | [] => []
  | b :: rest => bitsOfByte b ++ unpackBytes rest

/-- Modelled from the spec: bit-kind decoding — unpack the response bytes
and keep one boolean per addressed point. -/
def decodeBits (count : Nat) (bytes : List Nat) : List Bool :=
  (unpackBytes bytes).take count

/-- Pack up to eight booleans into one byte, first boolean into bit 0. -/
def byteOfBits (bs : List Bool) : Nat :=
  bs.foldr (fun b acc => acc * 2 + cond b 1 0) 0

/-- Pack a boolean sequence into response bytes, eight points per byte,
the trailing byte zero-padded in its high bits. -/
def packBits (bs : List Bool) : List Nat :=
  if bs = [] then []
  else byteOfBits (bs.take 8) :: packBits (bs.drop 8)
termination_by bs.length
decreasing_by
  simp only [List.length_drop]
  cases bs with
  | nil => simp_all
  | cons b rest => simp only [List.length_cons]; omega

/-- Modelled from the spec: register values travel as big-endian 16-bit
unsigned integers — two bytes per value, high byte first. -/
def encodeRegisters (vs : List Nat) : List Nat :=
  match vs with
  | [] => []
  | v :: rest => (v / 256 % 256) :: (v % 256) :: encodeRegisters rest

/-- Decode big-endian byte pairs into 16-bit register values. -/
def decodeRegisters : List Nat → List Nat
  | b0 :: b1 :: rest => (b0 * 256 + b1) :: decodeRegisters rest
  | _ => []

/-- Decode-side error taxonomy of the codec (spec §4.2 and §7). -/
inductive DecodeError
  | protocolError
  | malformedFrameError
  deriving DecidableEq, Repr

/-- Modelled from the spec: `decodeReadResponse(kind, count, bytes)` — fails
with MalformedFrameError when the byte length does not match the expected
encoding for `count` items of `kind`; register values decode as big-endian
16-bit unsigned integers; bit kinds unpack one boolean per addressed point. -/
def decodeReadResponse (kind : RegisterKind) (count : Nat) (bytes : List Nat) :
    Except DecodeError Values :=
  if kindIsRegister kind then
    if bytes.length = 2 * count then .ok (.regs (decodeRegisters bytes))
    else .error .malformedFrameError
  else
    if bytes.length = (count + 7) / 8 then .ok (.bits (decodeBits count bytes))
    else .error .malformedFrameError

/-- Modelled from the spec: build the synthetic response payload a device
would return for the given value sequence. -/
def encodeResponse : Values → List Nat
  | .regs vs => encodeRegisters vs
  | .bits bs => packBits bs

/-- A value sequence is well formed for a kind when its shape matches the
kind and every register value fits in 16 bits. -/
def valuesWellFormed (kind : RegisterKind) : Values → Prop
  | .regs vs => kindIsRegister kind = true ∧ ∀ v ∈ vs, v < 65536
  | .bits _ => kindIsRegister kind = false

/-- Length of a value sequence. -/
def valuesLength : Values → Nat
  | .regs vs => vs.length
  | .bits bs => bs.length

/-! ## Register Group Registry (modelled from the spec, §4.3) -/

/-- Registration-time error (spec §7: bad registration input, never retried). -/
inductive ValidationError
  | invalidInput
  deriving DecidableEq, Repr

/-- Modelled from the spec: `addGroup(address, count, kind, name)` validates
its inputs (address 0–65535, count 1..max-for-kind, name non-empty; the kind
is one of the four recognized values by construction) and fails with
ValidationError otherwise, leaving the registry unchanged; on success it
appends the new group, preserving registration order. -/
def addGroup (reg : List RegisterGroup) (address count : Nat)
    (kind : RegisterKind) (name : String) :
    List RegisterGroup × Option ValidationError :=
  if address ≤ 65535 ∧ 1 ≤ count ∧ count ≤ maxCount kind ∧ name ≠ "" then
    (reg ++ [⟨address, count, kind, name⟩], none)
  else
    (reg, some .invalidInput)

/-! ## Poll Cycle Executor (modelled from the spec, §4.4) -/

/-- Retryable per-exchange failures (spec §7: timeout, peer disconnect,
Modbus exception / malformed frame). -/
inductive PollError
  | timeoutError
  | disconnectedError
  | protocolError
  deriving DecidableEq, Repr

/-- One decoded Reading: originating group name, kind and value sequence. -/
structure Reading where
  name : String
  kind : RegisterKind
  values : Values
  deriving DecidableEq, Repr

/-- Bounded-retry loop of `pollOne`: `i` is the index of the next attempt,
`fuel` the number of attempts still allowed.  Each attempt exchanges and
decodes; on any failure the next attempt is tried until the fuel runs out.
Returns the decoded values (if any attempt succeeded) and the number of
attempts made. -/
def pollOneGo (exchange : Nat → Except PollError (List Nat))
    (kind : RegisterKind) (count : Nat) : Nat → Nat → Option Values × Nat
  | i, 0 => (none, i)
  | i, fuel + 1 =>
    match exchange i with
    | .ok bytes =>
      match decodeReadResponse kind count bytes with
      | .ok vals => (some vals, i + 1)
      | .error _ => pollOneGo exchange kind count (i + 1) fuel
    | .error _ => pollOneGo exchange kind count (i + 1) fuel

/-- Modelled from the spec: `pollOne(group)` — encode request, attempt the
exchange, decode on success; on TimeoutError/DisconnectedError/ProtocolError
retry up to `retries` additional attempts (1 initial attempt + `retries`
retries).  Returns the decoded values, if any attempt succeeded, together
with the number of attempts made. -/
def pollOne (exchange : Nat → Except PollError (List Nat))
    (g : RegisterGroup) (retries : Nat) : Option Values × Nat :=
  pollOneGo exchange g.kind g.count 0 (retries + 1)

/-- Modelled from the spec: `runCycle()` iterates the registry in order,
polls each group, assembles the Cycle Result from whichever Readings
succeeded (in registration order) and collects the names of the groups whose
every attempt failed (the failure report). -/
def runCycle (exchange : RegisterGroup → Nat → Except PollError (List Nat))
    (groups : List RegisterGroup) (retries : Nat) :
    List Reading × List String :=
  match groups with
  | [] => ([], [])
  | g :: rest =>
    let tail := runCycle exchange rest retries
    match (pollOne (exchange g) g retries).1 with
    | some vals => (⟨g.name, g.kind, vals⟩ :: tail.1, tail.2)
    | none => (tail.1, g.name :: tail.2)

/-! ## Monitor Loop (modelled from the spec, §4.5) -/

/-- Monitor loop phases (spec §4.5). -/
inductive Phase
  | idle
  | connecting
  | running
  | stopping
  deriving DecidableEq, Repr

/-- Observable state of the monitor loop: its phase, whether the Transport
is connected, whether cooperative cancellation has been requested, and how
many cycles (poll cycle plus callback) have run to completion. -/
structure LoopState where
  phase : Phase
  connected : Bool
  stopRequested : Bool
  cyclesCompleted : Nat
  deriving DecidableEq, Repr

/-- Modelled from the spec: `stop()` — callable from any state, requests
cooperative cancellation; it only sets the cancellation flag, the loop
honours it at the next cycle boundary. -/
def stop (s : LoopState) : LoopState :=
  { s with stopRequested := true }

/-- Modelled from the spec: one iteration of the running loop — the current
cycle and its callback run to completion, then the cancellation flag is
checked: if stop was requested, no further cycle is scheduled, the Transport
is disconnected and the loop transitions to Idle.  Outside the Running phase
no cycle runs. -/
def cycleStep (s : LoopState) : LoopState :=
  if s.phase = Phase.running then
    let s' := { s with cyclesCompleted := s.cyclesCompleted + 1 }
    if s'.stopRequested then
      { s' with phase := Phase.idle, connected := false }
    else s'
  else s

/-- An exception raised by the user-supplied callback. -/
inductive CallbackError
  | raised
  deriving DecidableEq, Repr

/-- Modelled from the spec: the `monitorContinuously` loop — each iteration
produces one Cycle Result (`cycles k` is the result of the k-th cycle) and
delivers it to the callback as a single unit; a callback exception first
disconnects the connection (cleanup) and then propagates to the caller,
terminating the loop; when the run ends normally the connection is likewise
disconnected.  Returns the outcome, the final connected flag, and the list
of payloads delivered to the callback (one entry per invocation). -/
def monitorRun (cycles : Nat → List Reading)
    (callback : List Reading → Option CallbackError) :
    Nat → Nat → (Except CallbackError Unit × Bool) × List (List Reading)
  | 0, _ => ((.ok (), false), [])
  | fuel + 1, k =>
    match callback (cycles k) with
    | some e => ((.error e, false), [cycles k])
    | none =>
      let rest := monitorRun cycles callback fuel (k + 1)
      (rest.1, cycles k :: rest.2)

/-! ## `data_processor` (embedded from `example_config.py`) -/

/-- `pat` is a leading segment of `s` (character-by-character). -/
def listStartsWith : List Char → List Char → Bool
  | [], _ => true
  | _ :: _, [] => false
  | a :: as, b :: bs => a = b && listStartsWith as bs

/-- `pat` occurs as a contiguous segment of `s`. -/
def listInfix (pat : List Char) : List Char → Bool
  | [] => pat.isEmpty
  | c :: rest => listStartsWith pat (c :: rest) || listInfix pat rest

/-- Python's `pat in s` substring test on strings. -/
def strContains (s pat : String) : Bool :=
  listInfix pat.toList s.toList

/-- The per-item output of `data_processor`: one of its three classification
branches.  Coil values arrive as booleans; register values as integers, so an
item's values are a `Values` sequence and Python truthiness on a coil value
is the boolean itself.  The holding-branch average is exact (`sum/len` as a
rational). -/
inductive ItemOutput
  | holdingAvg (avg : ℚ)
  | inputSensors (vals : List Nat)
  | activeCoils (idx : List Nat)
  deriving DecidableEq, Repr

/-- Indices of the truthy values, as Python's
`[i for i, v in enumerate(values) if v]`. -/
def activeIndices (vals : List Bool) : List Nat :=
  (List.range vals.length).filter (fun i => vals.getD i false)

/-- Sum of a value sequence (register values as integers, booleans as 1/0,
matching Python's `sum`). -/
def valuesSum : Values → Nat
  | .regs vs => vs.sum
  | .bits bs => (bs.map (fun b => cond b 1 0)).sum

/-- Truthiness of a value sequence, as Python's `if values`. -/
def valuesNonEmpty : Values → Bool
  | .regs vs => !vs.isEmpty
  | .bits bs => !bs.isEmpty

/-- Embedded from `example_config.py`, `data_processor`: classify one item by
substring tests on its name — a name containing "Holding" yields the average
of its values (0 when empty), else a name containing "Input" echoes the
values, else a name containing "Coils" lists the indices of active coils;
any other name takes no branch and produces no output. -/
def processItem (name : String) (values : Values) : Option ItemOutput :=
  if strContains name "Holding" then
    some (.holdingAvg
      (if valuesNonEmpty values then
        (valuesSum values : ℚ) / (valuesLength values : ℚ)
      else 0))
  else if strContains name "Input" then
    some (.inputSensors (match values with | .regs vs => vs | .bits bs => bs.map (fun b => cond b 1 0)))
  else if strContains name "Coils" then
    some (.activeCoils (match values with
      | .bits bs => activeIndices bs
      | .regs vs => activeIndices (vs.map (fun v => decide (v ≠ 0)))))
  else none

/-! ## Codec lemmas -/

theorem length_encodeRegisters (vs : List Nat) :
    (encodeRegisters vs).length = 2 * vs.length := by
  induction vs with
  | nil => rfl
  | cons v rest ih => simp only [encodeRegisters, List.length_cons, ih]; omega

theorem decodeRegisters_encodeRegisters (vs : List Nat)
    (h : ∀ v ∈ vs, v < 65536) :
    decodeRegisters (encodeRegisters vs) = vs := by
  induction vs with
  | nil => rfl
  | cons v rest ih =>
    have hv : v < 65536 := h v (List.mem_cons_self v rest)
    simp only [encodeRegisters, decodeRegisters]
    rw [ih fun w hw => h w (List.mem_cons_of_mem v hw)]
    congr 1
    omega

theorem bitsOfByte_byteOfBits :
    ∀ chunk : List Bool, chunk.length ≤ 8 →
      bitsOfByte (byteOfBits chunk) = chunk ++ List.replicate (8 - chunk.length) false
  | [], _ => by decide
  | [b0], _ => by cases b0 <;> decide
  | [b0, b1], _ => by cases b0 <;> cases b1 <;> decide
  | [b0, b1, b2], _ => by cases b0 <;> cases b1 <;> cases b2 <;> decide
  | [b0, b1, b2, b3], _ => by
    cases b0 <;> cases b1 <;> cases b2 <;> cases b3 <;> decide
  | [b0, b1, b2, b3, b4], _ => by
    cases b0 <;> cases b1 <;> cases b2 <;> cases b3 <;> cases b4 <;> decide
  | [b0, b1, b2, b3, b4, b5], _ => by
    cases b0 <;> cases b1 <;> cases b2 <;> cases b3 <;> cases b4 <;> cases b5 <;>
      decide
  | [b0, b1, b2, b3, b4, b5, b6], _ => by
    cases b0 <;> cases b1 <;> cases b2 <;> cases b3 <;> cases b4 <;> cases b5 <;>
      cases b6 <;> decide
  | [b0, b1, b2, b3, b4, b5, b6, b7], _ => by
    cases b0 <;> cases b1 <;> cases b2 <;> cases b3 <;> cases b4 <;> cases b5 <;>
      cases b6 <;> cases b7 <;> decide
  | b0 :: b1 :: b2 :: b3 :: b4 :: b5 :: b6 :: b7 :: b8 :: t, h => by
    simp only [List.length_cons] at h; omega

theorem length_packBits (bs : List Bool) :
    (packBits bs).length = (bs.length + 7) / 8 := by
  induction bs using packBits.induct with
  | case1 => simp [packBits]
  | case2 bs h ih =>
    rw [packBits, if_neg h]
    simp only [List.length_cons, ih, List.length_drop]
    cases bs with
    | nil => exact absurd rfl h
    | cons b rest => simp only [List.length_cons]; omega

theorem take_unpackBytes_packBits (bs : List Bool) :
    (unpackBytes (packBits bs)).take bs.length = bs := by
  induction bs using packBits.induct with
  | case1 => rfl
  | case2 bs h ih =>
    rw [packBits, if_neg h]
    have hstep : unpackBytes (byteOfBits (bs.take 8) :: packBits (bs.drop 8)) =
        bitsOfByte (byteOfBits (bs.take 8)) ++ unpackBytes (packBits (bs.drop 8)) := rfl
    rw [hstep, bitsOfByte_byteOfBits (bs.take 8) (by simp)]
    by_cases hle : bs.length ≤ 8
    · have htake : bs.take 8 = bs := List.take_of_length_le hle
      have hdrop : bs.drop 8 = [] := List.drop_eq_nil_of_le hle
      rw [htake, hdrop, List.append_assoc]
      exact List.take_left' rfl
    · have hlen8 : (bs.take 8).length = 8 := by
        simp only [List.length_take]; omega
      have hpad : List.replicate (8 - (bs.take 8).length) false = [] := by
        simp [hlen8]
      rw [hpad, List.append_nil]
      have hsplit : bs.length = (bs.take 8).length + (bs.length - 8) := by
        rw [hlen8]; omega
      rw [hsplit, List.take_append]
      have hdlen : (bs.drop 8).length = bs.length - 8 := List.length_drop 8 bs
      rw [← hdlen, ih, List.take_append_drop]

/-! ## Poll executor lemmas -/

theorem pollOneGo_error (exchange : Nat → Except PollError (List Nat))
    (kind : RegisterKind) (count : Nat)
    (h : ∀ i, ∃ e, exchange i = Except.error e) :
    ∀ fuel i, pollOneGo exchange kind count i fuel = (none, i + fuel)
  | 0, i => by simp [pollOneGo]
  | fuel + 1, i => by
    obtain ⟨e, he⟩ := h i
    simp only [pollOneGo, he]
    rw [pollOneGo_error exchange kind count h fuel (i + 1)]
    congr 1
    omega

theorem pollOne_error (exchange : Nat → Except PollError (List Nat))
    (g : RegisterGroup) (retries : Nat)
    (h : ∀ i, ∃ e, exchange i = Except.error e) :
    pollOne exchange g retries = (none, retries + 1) := by
  unfold pollOne
  rw [pollOneGo_error exchange g.kind g.count h (retries + 1) 0]
  congr 1
  omega

theorem runCycle_allSuccess (exchange : RegisterGroup → Nat → Except PollError (List Nat))
    (retries : Nat) :
    ∀ groups : List RegisterGroup,
      (∀ g ∈ groups, ((pollOne (exchange g) g retries).1).isSome = true) →
      (runCycle exchange groups retries).1.map (fun r => (r.name, r.kind)) =
        groups.map (fun g => (g.name, g.kind)) ∧
      (runCycle exchange groups retries).2 = []
  | [], _ => ⟨rfl, rfl⟩
  | g :: rest, h => by
    have hg : ((pollOne (exchange g) g retries).1).isSome = true :=
      h g (List.mem_cons_self g rest)
    obtain ⟨vals, hv⟩ := Option.isSome_iff_exists.mp hg
    have ih := runCycle_allSuccess exchange retries rest
      (fun g' hg' => h g' (List.mem_cons_of_mem g hg'))
    simp only [runCycle, hv, List.map_cons]
    exact ⟨by rw [ih.1], ih.2⟩

/-! ## Claim theorems -/

/-- C1: for every valid register group and matching value sequence, decoding
the synthetic response built by the codec from those values returns exactly
that value sequence, preserving order and kind. -/
theorem decode_encode_roundtrip (g : RegisterGroup) (vs : Values)
    (_hvalid : validGroup g) (hwf : valuesWellFormed g.kind vs)
    (hlen : valuesLength vs = g.count) :
    decodeReadResponse g.kind g.count (encodeResponse vs) = .ok vs := by
  cases vs with
  | regs l =>
    obtain ⟨hk, hb⟩ := hwf
    simp only [valuesLength] at hlen
    simp only [encodeResponse, decodeReadResponse, hk, if_true,
      length_encodeRegisters, hlen, if_pos rfl,
      decodeRegisters_encodeRegisters l hb]
  | bits b =>
    have hk : kindIsRegister g.kind = false := hwf
    simp only [valuesLength] at hlen
    simp only [encodeResponse, decodeReadResponse, hk, Bool.false_eq_true,
      if_false, length_packBits, hlen, if_pos rfl, decodeBits]
    rw [← hlen, take_unpackBytes_packBits]
    simp

/-- C1 witness: a concrete holding-register group round-trips. -/
theorem decode_encode_roundtrip_witness :
    validGroup ⟨0, 5, RegisterKind.holding, "Temps"⟩ ∧
    decodeReadResponse RegisterKind.holding 5
      (encodeResponse (.regs [100, 101, 102, 103, 104])) =
      .ok (.regs [100, 101, 102, 103, 104]) :=
  ⟨by constructor <;> simp [maxCount],
   decode_encode_roundtrip ⟨0, 5, RegisterKind.holding, "Temps"⟩
    (.regs [100, 101, 102, 103, 104])
    (by constructor <;> simp [maxCount]) (by constructor <;> decide) rfl⟩

/-- C3: the coil response byte 0b00000101 for a group with address 0 and
count 8 decodes to [true, false, true, false, false, false, false, false];
in general bit 0 of the first response byte is the first addressed point. -/
theorem coil_bit_order (b : Nat) (rest : List Nat) (count : Nat)
    (h : 0 < count) :
    decodeReadResponse RegisterKind.coil 8 [5] =
      .ok (.bits [true, false, true, false, false, false, false, false]) ∧
    (decodeBits count (b :: rest)).head? = some (b.testBit 0) := by
  constructor
  · rfl
  · cases count with
    | zero => omega
    | succ n => simp [decodeBits, unpackBytes, bitsOfByte]

/-- C3 witness: the bit-order fact at byte 5, count 8. -/
theorem coil_bit_order_witness :
    (0 : Nat) < 8 ∧ (decodeBits 8 [5]).head? = some ((5 : Nat).testBit 0) :=
  ⟨by decide, (coil_bit_order 5 [] 8 (by decide)).2⟩

/-- C4: with retries = 3, a group whose device never responds within the
timeout is attempted exactly 4 times (1 initial attempt + 3 retries); its
Reading is omitted from the Cycle Result and exactly one failure is reported
for the group's name. -/
theorem pollOne_timeout_four_attempts
    (exchange : Nat → Except PollError (List Nat)) (g : RegisterGroup)
    (h : ∀ i, exchange i = Except.error PollError.timeoutError) :
    pollOne exchange g 3 = (none, 4) ∧
    runCycle (fun _ => exchange) [g] 3 = ([], [g.name]) := by
  have hp : pollOne exchange g 3 = (none, 4) :=
    pollOne_error exchange g 3 (fun i => ⟨PollError.timeoutError, h i⟩)
  refine ⟨hp, ?_⟩
  simp only [runCycle, hp]

/-- C4 witness: a concrete always-timing-out device for the "Temps" group. -/
theorem pollOne_timeout_four_attempts_witness :
    pollOne (fun _ => Except.error PollError.timeoutError)
      ⟨0, 5, RegisterKind.holding, "Temps"⟩ 3 = (none, 4) ∧
    runCycle (fun _ _ => Except.error PollError.timeoutError)
      [⟨0, 5, RegisterKind.holding, "Temps"⟩] 3 = ([], ["Temps"]) :=
  pollOne_timeout_four_attempts (fun _ => Except.error PollError.timeoutError)
    ⟨0, 5, RegisterKind.holding, "Temps"⟩ (fun _ => rfl)

/-- C2: when exactly one group times out on every attempt and every other
group's poll succeeds, `runCycle` still produces a Reading for each of the
other groups, in registration order, and reports exactly that one failure —
the bad group never aborts the cycle. -/
theorem runCycle_oneBadGroup
    (exchange : RegisterGroup → Nat → Except PollError (List Nat))
    (retries : Nat) :
    ∀ (pre post : List RegisterGroup) (bad : RegisterGroup),
      (∀ i, exchange bad i = Except.error PollError.timeoutError) →
      (∀ g ∈ pre ++ post, ((pollOne (exchange g) g retries).1).isSome = true) →
      (runCycle exchange (pre ++ bad :: post) retries).1.map
          (fun r => (r.name, r.kind)) =
        (pre ++ post).map (fun g => (g.name, g.kind)) ∧
      (runCycle exchange (pre ++ bad :: post) retries).2 = [bad.name]
  | [], post, bad, hbad, hgood => by
    have hb : pollOne (exchange bad) bad retries = (none, retries + 1) :=
      pollOne_error (exchange bad) bad retries
        (fun i => ⟨PollError.timeoutError, hbad i⟩)
    have ih := runCycle_allSuccess exchange retries post
      (fun g hg => hgood g (by simpa using hg))
    simp only [List.nil_append, runCycle, hb]
    exact ⟨ih.1, by rw [ih.2]⟩
  | p :: pre, post, bad, hbad, hgood => by
    have hp : ((pollOne (exchange p) p retries).1).isSome = true :=
      hgood p (List.mem_cons_self p (pre ++ post))
    obtain ⟨vals, hv⟩ := Option.isSome_iff_exists.mp hp
    have ih := runCycle_oneBadGroup exchange retries pre post bad hbad
      (fun g hg => hgood g (List.mem_cons_of_mem p hg))
    simp only [List.cons_append, runCycle, hv, List.map_cons, List.append_eq]
    exact ⟨by rw [ih.1], ih.2⟩

/-- C2 witness: three groups, the middle one always times out. -/
theorem runCycle_oneBadGroup_witness :
    (runCycle
        (fun g _ => if g.name = "bad" then Except.error PollError.timeoutError
          else Except.ok (encodeRegisters [7]))
        ([⟨0, 1, RegisterKind.holding, "a"⟩] ++
          ⟨0, 1, RegisterKind.holding, "bad"⟩ ::
            [⟨0, 1, RegisterKind.input, "c"⟩]) 3).1.map
        (fun r => (r.name, r.kind)) =
      ([⟨0, 1, RegisterKind.holding, "a"⟩, ⟨0, 1, RegisterKind.input, "c"⟩] :
          List RegisterGroup).map (fun g => (g.name, g.kind)) ∧
    (runCycle
        (fun g _ => if g.name = "bad" then Except.error PollError.timeoutError
          else Except.ok (encodeRegisters [7]))
        ([⟨0, 1, RegisterKind.holding, "a"⟩] ++
          ⟨0, 1, RegisterKind.holding, "bad"⟩ ::
            [⟨0, 1, RegisterKind.input, "c"⟩]) 3).2 = ["bad"] :=
  runCycle_oneBadGroup
    (fun g _ => if g.name = "bad" then Except.error PollError.timeoutError
      else Except.ok (encodeRegisters [7]))
    3 [⟨0, 1, RegisterKind.holding, "a"⟩] [⟨0, 1, RegisterKind.input, "c"⟩]
    ⟨0, 1, RegisterKind.holding, "bad"⟩ (fun _ => rfl) (by decide)

/-- C5: adding a group with count = 0, or with count above the kind's
protocol maximum, fails with ValidationError and returns the registry
exactly as it was. -/
theorem addGroup_invalid_count (reg : List RegisterGroup)
    (address count : Nat) (kind : RegisterKind) (name : String)
    (h : count = 0 ∨ maxCount kind < count) :
    addGroup reg address count kind name = (reg, some ValidationError.invalidInput) := by
  unfold addGroup
  rw [if_neg]
  rintro ⟨-, h1, h2, -⟩
  rcases h with h | h <;> omega

/-- C5 witness: count 0 is rejected and the registry is returned unchanged. -/
theorem addGroup_invalid_count_witness :
    addGroup [⟨0, 5, RegisterKind.holding, "Temps"⟩] 10 0 RegisterKind.holding "X" =
      ([⟨0, 5, RegisterKind.holding, "Temps"⟩], some ValidationError.invalidInput) :=
  addGroup_invalid_count [⟨0, 5, RegisterKind.holding, "Temps"⟩] 10 0
    RegisterKind.holding "X" (Or.inl rfl)

/-- C6 counterexample: a Cycle Result is not always one Reading per
registered group — a registry of one group whose every attempt times out
yields an empty Reading list. -/
theorem cycleResult_not_one_per_group :
    (runCycle (fun _ _ => Except.error PollError.timeoutError)
        [⟨0, 1, RegisterKind.holding, "G"⟩] 0).1.length ≠
      ([⟨0, 1, RegisterKind.holding, "G"⟩] : List RegisterGroup).length := by
  decide

/-- Unconditional shape of a cycle: the Readings are exactly the groups
whose poll succeeded, in registration order and preserving name and kind,
and the failure report is exactly the names of the groups whose every
attempt failed, likewise in registration order. -/
theorem runCycle_filter
    (exchange : RegisterGroup → Nat → Except PollError (List Nat))
    (retries : Nat) :
    ∀ groups : List RegisterGroup,
      (runCycle exchange groups retries).1.map (fun r => (r.name, r.kind)) =
        (groups.filter
            (fun g => ((pollOne (exchange g) g retries).1).isSome)).map
          (fun g => (g.name, g.kind)) ∧
      (runCycle exchange groups retries).2 =
        (groups.filter
            (fun g => !((pollOne (exchange g) g retries).1).isSome)).map
          (fun g => g.name)
  | [] => ⟨rfl, rfl⟩
  | g :: rest => by
    have ih := runCycle_filter exchange retries rest
    cases hv : (pollOne (exchange g) g retries).1 with
    | some vals =>
      simp only [runCycle, hv, List.filter_cons, Option.isSome_some,
        Bool.not_true, if_true, if_false, List.map_cons]
      exact ⟨by rw [ih.1], ih.2⟩
    | none =>
      simp only [runCycle, hv, List.filter_cons, Option.isSome_none,
        Bool.not_false, if_true, if_false, List.map_cons]
      exact ⟨ih.1, by rw [ih.2]⟩

/-- C6 (amended): for every registry and device behaviour, the Cycle Result
is an ordered sequence of Readings, one per registered group whose poll
succeeded (hence one per registered group whenever every poll succeeds), in
registration order and preserving name and kind, with the failed groups
reported by name in the same order; and the monitor loop always delivers a
cycle's entire result to the callback as a single unit (the first payload
delivered from cycle k is exactly the whole k-th Cycle Result). -/
theorem runCycle_order_single_delivery
    (exchange : RegisterGroup → Nat → Except PollError (List Nat))
    (groups : List RegisterGroup) (retries : Nat) :
    (runCycle exchange groups retries).1.map (fun r => (r.name, r.kind)) =
      (groups.filter
          (fun g => ((pollOne (exchange g) g retries).1).isSome)).map
        (fun g => (g.name, g.kind)) ∧
    (runCycle exchange groups retries).2 =
      (groups.filter
          (fun g => !((pollOne (exchange g) g retries).1).isSome)).map
        (fun g => g.name) ∧
    ∀ (cycles : Nat → List Reading)
      (callback : List Reading → Option CallbackError) (fuel k : Nat),
      ((monitorRun cycles callback (fuel + 1) k).2).head? = some (cycles k) := by
  refine ⟨(runCycle_filter exchange retries groups).1,
    (runCycle_filter exchange retries groups).2, ?_⟩
  intro cycles callback fuel k
  cases hcb : callback (cycles k) <;> simp [monitorRun, hcb]

/-- C7: `stop()` is callable from every state and idempotent; requested
during a running cycle it lets that cycle (and its callback) complete, then
schedules no further cycle, disconnects the Transport and moves the loop to
Idle. -/
theorem stop_idempotent_clean (s : LoopState) (h : s.phase = Phase.running) :
    (∀ t : LoopState, stop (stop t) = stop t) ∧
    (cycleStep (stop s)).cyclesCompleted = s.cyclesCompleted + 1 ∧
    (cycleStep (stop s)).phase = Phase.idle ∧
    (cycleStep (stop s)).connected = false ∧
    cycleStep (cycleStep (stop s)) = cycleStep (stop s) := by
  refine ⟨fun t => rfl, ?_, ?_, ?_, ?_⟩ <;> simp [stop, cycleStep, h]

/-- C7 witness: a running, connected loop state. -/
theorem stop_idempotent_clean_witness :
    (∀ t : LoopState, stop (stop t) = stop t) ∧
    (cycleStep (stop ⟨Phase.running, true, false, 0⟩)).cyclesCompleted = 1 ∧
    (cycleStep (stop ⟨Phase.running, true, false, 0⟩)).phase = Phase.idle ∧
    (cycleStep (stop ⟨Phase.running, true, false, 0⟩)).connected = false ∧
    cycleStep (cycleStep (stop ⟨Phase.running, true, false, 0⟩)) =
      cycleStep (stop ⟨Phase.running, true, false, 0⟩) :=
  stop_idempotent_clean ⟨Phase.running, true, false, 0⟩ rfl

/-- C8: when the user-supplied callback raises on the k-th cycle (having
succeeded on earlier ones), the loop terminates there — exactly k+1 cycle
deliveries happen even though more fuel remained — the exception propagates
to the caller of the run, and the connection is disconnected (cleaned up)
before it propagates. -/
theorem callbackError_propagates_after_cleanup
    (cycles : Nat → List Reading)
    (callback : List Reading → Option CallbackError) (e : CallbackError) :
    ∀ (k fuel k0 : Nat),
      callback (cycles (k0 + k)) = some e →
      (∀ j < k, callback (cycles (k0 + j)) = none) →
      k < fuel →
      (monitorRun cycles callback fuel k0).1 = (Except.error e, false) ∧
      ((monitorRun cycles callback fuel k0).2).length = k + 1 := by
  intro k
  induction k with
  | zero =>
    intro fuel k0 h1 _ hf
    cases fuel with
    | zero => omega
    | succ f =>
      rw [Nat.add_zero] at h1
      simp [monitorRun, h1]
  | succ k ih =>
    intro fuel k0 h1 h2 hf
    cases fuel with
    | zero => omega
    | succ f =>
      have h0 : callback (cycles k0) = none := by
        have h00 := h2 0 (Nat.succ_pos k)
        rwa [Nat.add_zero] at h00
      have h1' : callback (cycles (k0 + 1 + k)) = some e := by
        rw [show k0 + 1 + k = k0 + (k + 1) from by omega]
        exact h1
      have h2' : ∀ j < k, callback (cycles (k0 + 1 + j)) = none := by
        intro j hj
        rw [show k0 + 1 + j = k0 + (j + 1) from by omega]
        exact h2 (j + 1) (by omega)
      have hrec := ih f (k0 + 1) h1' h2' (by omega)
      simp only [monitorRun, h0, List.length_cons]
      exact ⟨hrec.1, by rw [hrec.2]⟩

/-- C8 witness: a callback that raises on the very first cycle. -/
theorem callbackError_propagates_witness :
    (monitorRun (fun _ => []) (fun _ => some CallbackError.raised) 1 0).1 =
      (Except.error CallbackError.raised, false) ∧
    ((monitorRun (fun _ => []) (fun _ => some CallbackError.raised) 1 0).2).length = 1 :=
  callbackError_propagates_after_cleanup (fun _ => [])
    (fun _ => some CallbackError.raised) CallbackError.raised 0 1 0 rfl
    (fun j hj => absurd hj (by omega)) (by omega)

/-- C9: none of the six group names registered in `main` contains the
substring "Holding", "Input" or "Coils", so `data_processor` takes none of
its three classification branches on them and produces no per-item output. -/
theorem main_example_names_unclassified (vs : Values) :
    processItem "Temperature_Setpoints" vs = none ∧
    processItem "Control_Parameters" vs = none ∧
    processItem "Temperature_Sensors" vs = none ∧
    processItem "Pressure_Sensors" vs = none ∧
    processItem "Output_Controls" vs = none ∧
    processItem "Alarm_Status" vs = none :=
  ⟨rfl, rfl, rfl, rfl, rfl, rfl⟩

/-- C10: for an item whose name contains "Holding" and whose value sequence
is empty, `data_processor` computes an average of 0 — the division by the
length is guarded by the emptiness check, so it is never evaluated on an
empty sequence. -/
theorem holding_empty_values_avg_zero (name : String) (vs : Values)
    (h : strContains name "Holding" = true) (hempty : valuesLength vs = 0) :
    processItem name vs = some (ItemOutput.holdingAvg 0) := by
  have hne : valuesNonEmpty vs = false := by
    cases vs <;>
      simp_all [valuesNonEmpty, valuesLength, List.length_eq_zero,
        List.isEmpty_iff]
  simp [processItem, h, hne]

/-- C10 witness: the empty holding reading "Holding_Registers". -/
theorem holding_empty_values_avg_zero_witness :
    strContains "Holding_Registers" "Holding" = true ∧
    processItem "Holding_Registers" (.regs []) =
      some (ItemOutput.holdingAvg 0) :=
  ⟨by decide,
   holding_empty_values_avg_zero "Holding_Registers" (.regs []) (by decide) rfl⟩

end ModbusMonitor
